import Mathlib

/-!
Shallow embedding of the ephemeral room-scoped file-relay server
(rooms, burn-after-read policies, provider uploads, expiry sweep).

The JavaScript source keeps three process-wide `Map`s — `rooms`,
`fileDownloads`, `fileFirstAccess` — plus per-connection variables
`currentRoom` / `currentUser`, and arms `setTimeout` timers for
time-based burn.  We model:

* JS `Map`s as association lists with JS `Map` semantics
  (`set` replaces in place, `delete` removes, `get` returns the value
  of the first matching key);
* each connected socket as an entry in a `sessions` map holding the
  connection-scoped variables `currentRoom` / `currentUser` (the
  `setTimeout` closure of the source reads the *live* `currentRoom`
  variable of the reporting socket, so timers store the socket id and
  dereference the session at fire time, exactly as the closure does);
* `Date.now()` as a `now : Nat` field (milliseconds) advanced by
  explicit clock events;
* every `socket.emit` / `io.to(room).emit` / `socket.to(room).emit`
  as an `Emission` appended to the step's output list.
-/

namespace Sovereign

/-- JS `Map.prototype.get`: value of the entry with the given key. -/
def alGet {α β : Type} [DecidableEq α] (m : List (α × β)) (k : α) : Option β :=
  match m with
  | [] => none
  | (k', v) :: rest => if k' = k then some v else alGet rest k

/-- JS `Map.prototype.set`: replace in place if the key exists, else append. -/
def alSet {α β : Type} [DecidableEq α] (m : List (α × β)) (k : α) (v : β) :
    List (α × β) :=
  match m with
  | [] => [(k, v)]
  | (k', v') :: rest =>
      if k' = k then (k, v) :: rest else (k', v') :: alSet rest k v

/-- JS `Map.prototype.delete`: remove the entry with the given key
(keys are unique in a JS `Map`, so dropping every occurrence is the
same operation). -/
def alDel {α β : Type} [DecidableEq α] (m : List (α × β)) (k : α) :
    List (α × β) :=
  match m with
  | [] => []
  | (k', v) :: rest => if k' = k then alDel rest k else (k', v) :: alDel rest k

/-- A burn policy: `{type:'downloads', downloads:n}` or `{type:'time', minutes:m}`. -/
inductive Burn : Type
  | downloads (downloads : Nat)
  | time (minutes : Nat)
  deriving DecidableEq, Repr

/-- A shared-file record as pushed onto `room.files` by `upload-file`.
`url` is whatever `result.url` evaluated to — `undefined` (here `none`)
when the awaited call did not return a provider result object. -/
structure File : Type where
  id : Nat
  tempId : Nat
  name : String
  size : Nat
  type : String
  provider : String
  url : Option String
  expiresAt : Option Nat
  sharedBy : Option String
  timestamp : Nat
  burn : Option Burn
  encrypted : Bool
  encryptionKey : Option String
  deriving DecidableEq, Repr

/-- A room: `{ users: Map(socketId -> username), files: [] }`. -/
structure Room : Type where
  users : List (Nat × Option String)
  files : List File
  deriving DecidableEq, Repr

/-- The per-connection variables `currentRoom` / `currentUser`. -/
structure Session : Type where
  currentRoom : Option String
  currentUser : Option String
  deriving DecidableEq, Repr

/-- A pending `setTimeout` armed for a time-based burn.  The callback
`() => checkBurnConditions(fileId, currentRoom)` captures `fileId` by
value but reads the socket's `currentRoom` variable at fire time, so
the timer records the socket id. -/
structure Timer : Type where
  fireAt : Nat
  fileId : Nat
  sid : Nat
  deriving DecidableEq, Repr

/-- Events emitted back to clients. -/
inductive OutEvent : Type
  | roomCreated (code : String)
  | errorMsg (msg : String)
  | roomJoined (code : String) (files : List File)
  | userJoined (username : Option String) (userCount : Nat)
  | usersUpdate (count : Nat)
  | userLeft (username : Option String) (userCount : Nat)
  | uploadProgress (tempId : Nat) (progress : Nat)
  | fileShared (f : File)
  | uploadError (tempId : Nat) (err : String)
  | fileBurned (fileId : Nat)
  deriving DecidableEq, Repr

/-- Where an `OutEvent` was sent: `socket.emit`, `io.to(code).emit`, or
`socket.to(code).emit` (room minus the sender). -/
inductive Emission : Type
  | toSession (sid : Nat) (ev : OutEvent)
  | toRoom (code : String) (ev : OutEvent)
  | toRoomExcept (code : String) (sid : Nat) (ev : OutEvent)
  deriving DecidableEq, Repr

/-- The whole server state. -/
structure ServerState : Type where
  rooms : List (String × Room)
  fileDownloads : List (Nat × Nat)
  fileFirstAccess : List (Nat × Nat)
  sessions : List (Nat × Session)
  timers : List Timer
  now : Nat
  deriving DecidableEq, Repr

/-- JS truthiness of a possibly-undefined string variable. -/
def truthyStr : Option String → Bool
  | none => false
  | some s => s ≠ ""

/-- `chars = 'ABCDEFGHJKLMNPQRSTUVWXYZ23456789'` of `generateCode`. -/
def codeChars : List Char :=
  ['A','B','C','D','E','F','G','H','J','K','L','M','N','P','Q','R','S','T',
   'U','V','W','X','Y','Z','2','3','4','5','6','7','8','9']

/-- `generateCode`: six characters drawn from `codeChars`; the random draw
`Math.floor(Math.random() * chars.length)` is modelled by an oracle
`r : Nat → Nat` reduced mod 32 (its exact range). -/
def generateCode (r : Nat → Nat) : String :=
  String.mk ((List.range 6).map (fun i => codeChars.getD (r i % 32) 'A'))

/-- The embedded data-URL payload of `upload-file`; `base64ToBuffer`
succeeds exactly on a well-formed `data:<mime>;base64,<body>` string. -/
inductive Payload : Type
  | dataUrl (mimetype : String) (content : String)
  | malformed
  deriving DecidableEq, Repr

/-- `base64ToBuffer`: decode or throw `'Invalid base64'`. -/
def base64ToBuffer : Payload → Option (String × String)
  | .dataUrl m c => some (c, m)
  | .malformed => none

/-- The own property names of the `uploadProviders` object literal — the
four real provider adapters. -/
def knownProviders : List String := ["litterbox", "catbox", "gofile", "tmpfiles"]

/-- `uploadProviders` is a plain object literal, so the lookup
`uploadProviders[provider]` also finds the properties inherited from
`Object.prototype`; all of them are truthy, so they pass the
`if (!uploadFn) throw new Error('Invalid provider')` guard.  These
seven are functions whose call with the upload arguments (sloppy-mode
`this` is the global object; the module has no `use strict`) returns
normally — e.g. `Object.prototype.toString` yields a string, and
`constructor` is `Object`, which returns the buffer — so the handler
continues down the success path with `result.url` and
`result.expiresAt` both `undefined`. -/
def protoCallOkProviders : List String :=
  ["constructor", "hasOwnProperty", "isPrototypeOf", "propertyIsEnumerable",
   "toLocaleString", "toString", "valueOf"]

/-- Inherited names whose invocation throws at the call itself:
`__defineGetter__` / `__defineSetter__` require their second argument
(here the filename string) to be callable, and `__proto__` is
`Object.prototype`, truthy but not a function.  The throw happens
before the 90% progress event and lands in the catch; the TypeError's
message text is engine-specific and modelled by a marker string. -/
def protoThrowAtCallProviders : List String :=
  ["__defineGetter__", "__defineSetter__", "__proto__"]

/-- Inherited names whose call returns `undefined`
(`__lookupGetter__` / `__lookupSetter__` find no accessor): the await
succeeds and the 90% progress event is emitted, but the subsequent
`result.url` access throws, landing in the catch; the TypeError's
message text is engine-specific and modelled by a marker string. -/
def protoThrowAtResultProviders : List String :=
  ["__lookupGetter__", "__lookupSetter__"]

/-- `burnFile(fileId, roomCode)`: drop the file from the manifest, purge
both tracker maps, broadcast `file-burned` to the room. -/
def burnFile (fileId : Nat) (roomCode : String) (st : ServerState) :
    ServerState × List Emission :=
  match alGet st.rooms roomCode with
  | none => (st, [])
  | some room =>
      let room' : Room := { room with files := room.files.filter (fun f => f.id ≠ fileId) }
      ({ st with
          rooms := alSet st.rooms roomCode room',
          fileDownloads := alDel st.fileDownloads fileId,
          fileFirstAccess := alDel st.fileFirstAccess fileId },
       [Emission.toRoom roomCode (OutEvent.fileBurned fileId)])

/-- `checkBurnConditions(fileId, roomCode)`. -/
def checkBurnConditions (fileId : Nat) (roomCode : String) (st : ServerState) :
    ServerState × List Emission :=
  match alGet st.rooms roomCode with
  | none => (st, [])
  | some room =>
      match room.files.find? (fun f => f.id = fileId) with
      | none => (st, [])
      | some file =>
          match file.burn with
          | none => (st, [])
          | some (Burn.downloads n) =>
              if (alGet st.fileDownloads fileId).getD 0 ≥ n then
                burnFile fileId roomCode st
              else (st, [])
          | some (Burn.time minutes) =>
              match alGet st.fileFirstAccess fileId with
              | none => (st, [])
              | some firstAccess =>
                  if st.now ≥ firstAccess + minutes * 60000 then
                    burnFile fileId roomCode st
                  else (st, [])

/-- `create-room`: generate a code, `rooms.set` (overwriting any room that
already holds that code), bind the session, ack `room-created`. -/
def createRoom (sid : Nat) (username : Option String) (r : Nat → Nat)
    (st : ServerState) : ServerState × List Emission :=
  let roomCode := generateCode r
  ({ st with
      rooms := alSet st.rooms roomCode ({ users := [(sid, username)], files := [] }),
      sessions := alSet st.sessions sid
        ({ currentRoom := some roomCode, currentUser := username }) },
   [Emission.toSession sid (OutEvent.roomCreated roomCode)])

/-- `join-room`: `error 'Room not found'` for an unknown code; otherwise add
the member, bind the session and emit the three join events. -/
def joinRoom (sid : Nat) (username : Option String) (roomCode : String)
    (st : ServerState) : ServerState × List Emission :=
  match alGet st.rooms roomCode with
  | none => (st, [Emission.toSession sid (OutEvent.errorMsg "Room not found")])
  | some room =>
      let room' : Room := { room with users := alSet room.users sid username }
      ({ st with
          rooms := alSet st.rooms roomCode room',
          sessions := alSet st.sessions sid
            ({ currentRoom := some roomCode, currentUser := username }) },
       [Emission.toSession sid (OutEvent.roomJoined roomCode room'.files),
        Emission.toRoomExcept roomCode sid
          (OutEvent.userJoined username room'.users.length),
        Emission.toRoom roomCode (OutEvent.usersUpdate room'.users.length)])

/-- The client-supplied `upload-file` payload. -/
structure UploadInput : Type where
  tempId : Nat
  name : String
  size : Nat
  type : String
  data : Payload
  provider : String
  burn : Option Burn
  encrypted : Bool
  encryptionKey : Option String
  deriving DecidableEq, Repr

/-- The file record built after the awaited call succeeds: `url` and
`expiresAt` are `result.url` and `result.expiresAt` of whatever value
the call returned. -/
def mkSharedFile (inp : UploadInput) (newId : Nat) (url : Option String)
    (expiresAt : Option Nat) (sharedBy : Option String) (now : Nat) : File :=
  { id := newId, tempId := inp.tempId, name := inp.name, size := inp.size,
    type := inp.type, provider := inp.provider, url := url,
    expiresAt := expiresAt, sharedBy := sharedBy, timestamp := now,
    burn := inp.burn, encrypted := inp.encrypted,
    encryptionKey := inp.encryptionKey }

/-- The success tail of `upload-file` after `await uploadFn(...)` returns:
90% progress to the uploader, build the file record, push it onto the
manifest (shifting the oldest entry past 100), initialise the download
counter when a burn policy is attached, and broadcast `file-shared`. -/
def shareUploadedFile (sid : Nat) (inp : UploadInput) (newId : Nat)
    (url : Option String) (expiresAt : Option Nat) (sharedBy : Option String)
    (roomCode : String) (st : ServerState) : ServerState × List Emission :=
  let p90 := Emission.toSession sid (OutEvent.uploadProgress inp.tempId 90)
  let file := mkSharedFile inp newId url expiresAt sharedBy st.now
  let st1 :=
    match alGet st.rooms roomCode with
    | none => st
    | some room =>
        let files' := room.files ++ [file]
        let files'' := if files'.length > 100 then files'.drop 1 else files'
        let room2 : Room := { room with files := files'' }
        { st with rooms := alSet st.rooms roomCode room2 }
  let st2 :=
    if inp.burn.isSome then
      { st1 with fileDownloads := alSet st1.fileDownloads newId 0 }
    else st1
  (st2, [p90, Emission.toRoom roomCode (OutEvent.fileShared file)])

/-- `upload-file`.  `newId` stands for the fresh `generateId()` result and
`res` for the outcome of the awaited network call of a real provider
adapter (a thrown error is `.error msg`); any throw lands in the
`catch` that emits `upload-error` to the uploader.  The provider
dispatch mirrors `uploadProviders[provider]` on the object literal:
the four own keys run their adapter; the truthy `Object.prototype`
names escape the `!uploadFn` throw — the seven callable ones continue
to the success tail with a `result` that has no `url`/`expiresAt`,
while the others throw a TypeError at the call or at the `result.url`
access; every remaining name is `undefined` and throws
`'Invalid provider'`. -/
def uploadFile (sid : Nat) (inp : UploadInput) (newId : Nat)
    (res : Except String (String × Option Nat)) (st : ServerState) :
    ServerState × List Emission :=
  match alGet st.sessions sid with
  | none => (st, [])
  | some sess =>
      match sess.currentRoom with
      | none => (st, [])
      | some roomCode =>
          let p10 := Emission.toSession sid (OutEvent.uploadProgress inp.tempId 10)
          match base64ToBuffer inp.data with
          | none =>
              (st, [p10, Emission.toSession sid
                      (OutEvent.uploadError inp.tempId "Invalid base64")])
          | some _ =>
              let p30 := Emission.toSession sid (OutEvent.uploadProgress inp.tempId 30)
              if knownProviders.contains inp.provider then
                match res with
                | Except.error msg =>
                    (st, [p10, p30, Emission.toSession sid
                            (OutEvent.uploadError inp.tempId msg)])
                | Except.ok (url, expiresAt) =>
                    let tail := shareUploadedFile sid inp newId (some url)
                      expiresAt sess.currentUser roomCode st
                    (tail.1, [p10, p30] ++ tail.2)
              else if protoCallOkProviders.contains inp.provider then
                let tail := shareUploadedFile sid inp newId none none
                  sess.currentUser roomCode st
                (tail.1, [p10, p30] ++ tail.2)
              else if protoThrowAtCallProviders.contains inp.provider then
                (st, [p10, p30, Emission.toSession sid
                        (OutEvent.uploadError inp.tempId "TypeError")])
              else if protoThrowAtResultProviders.contains inp.provider then
                (st, [p10, p30,
                      Emission.toSession sid (OutEvent.uploadProgress inp.tempId 90),
                      Emission.toSession sid
                        (OutEvent.uploadError inp.tempId "TypeError")])
              else
                (st, [p10, p30, Emission.toSession sid
                        (OutEvent.uploadError inp.tempId "Invalid provider")])

/-- `file-downloaded`: count the access, record first access (arming the
one-shot timer for a time policy), then re-evaluate burn conditions. -/
def fileDownloaded (sid : Nat) (fileId : Nat) (st : ServerState) :
    ServerState × List Emission :=
  match alGet st.sessions sid with
  | none => (st, [])
  | some sess =>
      match sess.currentRoom with
      | none => (st, [])
      | some roomCode =>
          match alGet st.rooms roomCode with
          | none => (st, [])
          | some room =>
              match room.files.find? (fun f => f.id = fileId) with
              | none => (st, [])
              | some file =>
                  match file.burn with
                  | none => (st, [])
                  | some b =>
                      let downloads := (alGet st.fileDownloads fileId).getD 0 + 1
                      let st1 := { st with
                        fileDownloads := alSet st.fileDownloads fileId downloads }
                      let st2 :=
                        if (alGet st1.fileFirstAccess fileId).isSome then st1
                        else
                          let st1a := { st1 with
                            fileFirstAccess := alSet st1.fileFirstAccess fileId st1.now }
                          match b with
                          | Burn.time minutes =>
                              { st1a with timers := st1a.timers ++
                                  [{ fireAt := st1a.now + minutes * 60000,
                                     fileId := fileId, sid := sid }] }
                          | Burn.downloads _ => st1a
                      checkBurnConditions fileId roomCode st2

/-- Purge tracker entries for each file of a list (the `forEach` /
filter-side-effect deletions of the source). -/
def purgeAll (m : List (Nat × Nat)) (files : List File) : List (Nat × Nat) :=
  files.foldl (fun acc f => alDel acc f.id) m

/-- `handleLeave` (shared by `leave-room` and `disconnect`). -/
def handleLeave (sid : Nat) (st : ServerState) : ServerState × List Emission :=
  match alGet st.sessions sid with
  | none => (st, [])
  | some sess =>
      let result :=
        if truthyStr sess.currentRoom && truthyStr sess.currentUser then
          match sess.currentRoom with
          | none => (st, [])
          | some roomCode =>
              match alGet st.rooms roomCode with
              | none => (st, [])
              | some room =>
                  let users' := alDel room.users sid
                  let room' : Room := { room with users := users' }
                  let evs := [Emission.toRoomExcept roomCode sid
                                (OutEvent.userLeft sess.currentUser users'.length),
                              Emission.toRoom roomCode
                                (OutEvent.usersUpdate users'.length)]
                  if users'.length = 0 then
                    ({ st with
                        rooms := alDel (alSet st.rooms roomCode room') roomCode,
                        fileDownloads := purgeAll st.fileDownloads room.files,
                        fileFirstAccess := purgeAll st.fileFirstAccess room.files },
                     evs)
                  else
                    ({ st with rooms := alSet st.rooms roomCode room' }, evs)
        else (st, [])
      let cleared : Session := { currentRoom := none, currentUser := none }
      ({ result.1 with sessions := alSet result.1.sessions sid cleared },
       result.2)

/-- Whether a file's provider-declared expiry has passed. -/
def expired (now : Nat) (f : File) : Bool :=
  match f.expiresAt with
  | some t => t ≤ now
  | none => false

/-- One room of the cleanup sweep: drop expired files and purge their
tracker entries. -/
def sweepRoom (now : Nat) (acc : ServerState) (entry : String × Room) :
    ServerState :=
  let dead := entry.2.files.filter (fun f => expired now f)
  { acc with
      rooms := alSet acc.rooms entry.1
        ({ entry.2 with files := entry.2.files.filter (fun f => ¬ expired now f) }),
      fileDownloads := purgeAll acc.fileDownloads dead,
      fileFirstAccess := purgeAll acc.fileFirstAccess dead }

/-- The periodic `setInterval` cleanup sweep (`now` read once at entry). -/
def sweep (st : ServerState) : ServerState :=
  st.rooms.foldl (sweepRoom st.now) st

/-- Fire an armed timer: the callback reads the arming socket's *live*
`currentRoom` variable and calls `checkBurnConditions` with it
(`rooms.get(null)` misses when the variable has been cleared). -/
def fireTimer (t : Timer) (st : ServerState) : ServerState × List Emission :=
  match alGet st.sessions t.sid with
  | none => (st, [])
  | some sess =>
      match sess.currentRoom with
      | none => (st, [])
      | some roomCode => checkBurnConditions t.fileId roomCode st

/-- The server's inbound events plus clock/timer/sweep steps. -/
inductive Event : Type
  | createRoom (sid : Nat) (username : Option String) (r : Nat → Nat)
  | joinRoom (sid : Nat) (username : Option String) (code : String)
  | uploadFile (sid : Nat) (inp : UploadInput) (newId : Nat)
      (res : Except String (String × Option Nat))
  | fileDownloaded (sid : Nat) (fileId : Nat)
  | leave (sid : Nat)
  | timerFire (idx : Nat)
  | sweepTick
  | tick (dt : Nat)

/-- One step of the server. -/
def step (st : ServerState) (e : Event) : ServerState × List Emission :=
  match e with
  | Event.createRoom sid u r => createRoom sid u r st
  | Event.joinRoom sid u code => joinRoom sid u code st
  | Event.uploadFile sid inp newId res => uploadFile sid inp newId res st
  | Event.fileDownloaded sid fileId => fileDownloaded sid fileId st
  | Event.leave sid => handleLeave sid st
  | Event.timerFire idx =>
      match st.timers[idx]? with
      | none => (st, [])
      | some t =>
          if st.now ≥ t.fireAt then
            fireTimer t { st with timers := st.timers.eraseIdx idx }
          else (st, [])
  | Event.sweepTick => (sweep st, [])
  | Event.tick dt => ({ st with now := st.now + dt }, [])

/-- Run a list of events, accumulating all emissions. -/
def run (st : ServerState) (es : List Event) : ServerState × List Emission :=
  es.foldl (fun acc e => ((step acc.1 e).1, acc.2 ++ (step acc.1 e).2)) (st, [])

/-- Whether the given room's manifest currently holds a file of this id. -/
def manifestHas (st : ServerState) (code : String) (fid : Nat) : Bool :=
  match alGet st.rooms code with
  | none => false
  | some room => (room.files.find? (fun f => f.id = fid)).isSome

/-- Whether the given room's manifest holds a file of this id carrying a
burn policy. -/
def manifestBurnTarget (st : ServerState) (code : String) (fid : Nat) : Bool :=
  match alGet st.rooms code with
  | none => false
  | some room =>
      match room.files.find? (fun f => f.id = fid) with
      | none => false
      | some f => f.burn.isSome

/-- Recognise a `file-burned` emission for a given file id. -/
def isBurnOf (fid : Nat) : Emission → Bool
  | Emission.toSession _ (OutEvent.fileBurned g) => g = fid
  | Emission.toRoom _ (OutEvent.fileBurned g) => g = fid
  | Emission.toRoomExcept _ _ (OutEvent.fileBurned g) => g = fid
  | _ => false

/-- Every manifest in the map is within the 100-entry bound. -/
def boundedRooms (rooms : List (String × Room)) : Prop :=
  ∀ p ∈ rooms, p.2.files.length ≤ 100

instance (rooms : List (String × Room)) : Decidable (boundedRooms rooms) :=
  List.decidableBAll _ rooms

theorem alGet_alSet_self {α β : Type} [DecidableEq α] (m : List (α × β))
    (k : α) (v : β) : alGet (alSet m k v) k = some v := by
  induction m with
  | nil => simp [alSet, alGet]
  | cons p rest ih =>
      obtain ⟨a, b⟩ := p
      by_cases h : a = k
      · simp [alSet, alGet, h]
      · simp [alSet, alGet, h, ih]

theorem alGet_alSet_ne {α β : Type} [DecidableEq α] (m : List (α × β))
    {k k' : α} (v : β) (h : k' ≠ k) :
    alGet (alSet m k v) k' = alGet m k' := by
  induction m with
  | nil => simp [alSet, alGet, Ne.symm h]
  | cons p rest ih =>
      obtain ⟨a, b⟩ := p
      by_cases ha : a = k
      · subst ha
        simp [alSet, alGet, Ne.symm h, h]
      · by_cases ha' : a = k'
        · simp [alSet, alGet, ha, ha', h]
        · simp [alSet, alGet, ha, ha', ih]

theorem alGet_alDel_self {α β : Type} [DecidableEq α] (m : List (α × β))
    (k : α) : alGet (alDel m k) k = none := by
  induction m with
  | nil => simp [alDel, alGet]
  | cons p rest ih =>
      obtain ⟨a, b⟩ := p
      by_cases h : a = k
      · simpa [alDel, alGet, h] using ih
      · simpa [alDel, alGet, h] using ih

theorem alGet_alDel_ne {α β : Type} [DecidableEq α] (m : List (α × β))
    {k k' : α} (h : k' ≠ k) : alGet (alDel m k) k' = alGet m k' := by
  induction m with
  | nil => simp [alDel, alGet]
  | cons p rest ih =>
      obtain ⟨a, b⟩ := p
      by_cases ha : a = k
      · subst ha
        simp [alDel, alGet, Ne.symm h, ih]
      · by_cases ha' : a = k'
        · simp [alDel, alGet, ha, ha', h, ih]
        · simp [alDel, alGet, ha, ha', ih]

theorem alSet_eq_self {α β : Type} [DecidableEq α] {m : List (α × β)}
    {k : α} {v : β} (h : alGet m k = some v) : alSet m k v = m := by
  induction m with
  | nil => simp [alGet] at h
  | cons p rest ih =>
      obtain ⟨a, b⟩ := p
      by_cases ha : a = k
      · subst ha
        simp [alGet] at h
        simp [alSet, h]
      · simp [alGet, ha] at h
        simp [alSet, ha, ih h]

theorem alGet_mem {α β : Type} [DecidableEq α] {m : List (α × β)} {k : α}
    {v : β} (h : alGet m k = some v) : (k, v) ∈ m := by
  induction m with
  | nil => simp [alGet] at h
  | cons p rest ih =>
      obtain ⟨a, b⟩ := p
      by_cases ha : a = k
      · subst ha
        simp [alGet] at h
        simp [h]
      · simp [alGet, ha] at h
        exact List.mem_cons_of_mem _ (ih h)

theorem mem_alSet {α β : Type} [DecidableEq α] {m : List (α × β)} {k : α}
    {v : β} {p : α × β} (h : p ∈ alSet m k v) : p = (k, v) ∨ p ∈ m := by
  induction m with
  | nil => simpa [alSet] using h
  | cons q rest ih =>
      obtain ⟨a, b⟩ := q
      by_cases ha : a = k
      · simp [alSet, ha] at h
        rcases h with h | h
        · exact Or.inl h
        · exact Or.inr (List.mem_cons_of_mem _ h)
      · simp [alSet, ha] at h
        rcases h with h | h
        · exact Or.inr (by simp [h])
        · rcases ih h with h' | h'
          · exact Or.inl h'
          · exact Or.inr (List.mem_cons_of_mem _ h')

theorem alGet_purgeAll (m : List (Nat × Nat)) (files : List File) (fid : Nat) :
    alGet (purgeAll m files) fid =
      if fid ∈ files.map File.id then none else alGet m fid := by
  induction files generalizing m with
  | nil => simp [purgeAll]
  | cons f fs ih =>
      have hrw : purgeAll m (f :: fs) = purgeAll (alDel m f.id) fs := rfl
      rw [hrw, ih]
      by_cases h1 : fid ∈ fs.map File.id
      · simp [h1]
      · by_cases h2 : fid = f.id
        · simp [h1, h2, alGet_alDel_self]
        · simp [h1, h2, alGet_alDel_ne _ h2]

theorem purgeAll_get_none {m : List (Nat × Nat)} {files : List File}
    {fid : Nat} (h : fid ∈ files.map File.id) :
    alGet (purgeAll m files) fid = none := by
  simp [alGet_purgeAll, h]

theorem purgeAll_none_preserved {m : List (Nat × Nat)} {files : List File}
    {fid : Nat} (h : alGet m fid = none) :
    alGet (purgeAll m files) fid = none := by
  rw [alGet_purgeAll]
  by_cases h1 : fid ∈ files.map File.id <;> simp [h1, h]

theorem run_nil (st : ServerState) : run st [] = (st, []) := rfl

theorem runFold_acc (l : List Event) :
    ∀ (s : ServerState) (acc : List Emission),
      l.foldl (fun a e => ((step a.1 e).1, a.2 ++ (step a.1 e).2)) (s, acc) =
        ((run s l).1, acc ++ (run s l).2) := by
  induction l with
  | nil => intro s acc; simp [run]
  | cons e rest ih =>
      intro s acc
      simp only [run, List.foldl_cons] at *
      rw [ih (step s e).1 (acc ++ (step s e).2),
          ih (step s e).1 ([] ++ (step s e).2)]
      simp

theorem run_cons (st : ServerState) (e : Event) (l : List Event) :
    run st (e :: l) =
      ((run (step st e).1 l).1, (step st e).2 ++ (run (step st e).1 l).2) := by
  simp only [run, List.foldl_cons]
  rw [runFold_acc]
  simp [run]

theorem run_snoc (st : ServerState) (l : List Event) (e : Event) :
    run st (l ++ [e]) =
      ((step (run st l).1 e).1, (run st l).2 ++ (step (run st l).1 e).2) := by
  induction l generalizing st with
  | nil => simp [run_cons, run_nil, run]
  | cons e' rest ih =>
      rw [List.cons_append, run_cons, ih, run_cons]
      simp

theorem find?_id_filter_ne (l : List File) (fid : Nat) :
    (l.filter (fun f => f.id ≠ fid)).find? (fun f => f.id = fid) = none := by
  rw [List.find?_eq_none]
  intro f hf
  have h := (List.mem_filter.mp hf).2
  simp at h
  simp [h]

/-- C7: burn triggering is idempotent — once the file id is absent from the
room's manifest, a redundant trigger (a direct `checkBurnConditions`
re-evaluation, a further `file-downloaded` access report, or a fired
deferred time check) leaves the state unchanged and emits nothing, so a
second `file-burned` broadcast is never produced for that id. -/
theorem C7_burn_trigger_idempotent (st : ServerState) (sid fid fireAt : Nat)
    (code : String) (cu : Option String)
    (hsess : alGet st.sessions sid = some ⟨some code, cu⟩)
    (habsent : manifestHas st code fid = false) :
    checkBurnConditions fid code st = (st, []) ∧
    fileDownloaded sid fid st = (st, []) ∧
    fireTimer ⟨fireAt, fid, sid⟩ st = (st, []) := by
  cases hr : alGet st.rooms code with
  | none =>
      refine ⟨?_, ?_, ?_⟩
      · simp [checkBurnConditions, hr]
      · simp [fileDownloaded, hsess, hr]
      · simp [fireTimer, hsess, checkBurnConditions, hr]
  | some room =>
      have hfind : room.files.find? (fun f => f.id = fid) = none := by
        simp only [manifestHas, hr] at habsent
        cases hf : room.files.find? (fun f => f.id = fid) with
        | none => rfl
        | some f => rw [hf] at habsent; simp at habsent
      refine ⟨?_, ?_, ?_⟩
      · simp [checkBurnConditions, hr, hfind]
      · simp [fileDownloaded, hsess, hr, hfind]
      · simp [fireTimer, hsess, checkBurnConditions, hr, hfind]

def stW7 : ServerState :=
  { rooms := [("ZZZZZZ", { users := [(3, some "u")], files := [] })],
    fileDownloads := [], fileFirstAccess := [],
    sessions := [(3, { currentRoom := some "ZZZZZZ", currentUser := some "u" })],
    timers := [], now := 0 }

/-- Witness for C7 at a concrete state whose room manifest lacks file 42. -/
theorem C7_burn_trigger_idempotent_witness :
    checkBurnConditions 42 "ZZZZZZ" stW7 = (stW7, []) ∧
    fileDownloaded 3 42 stW7 = (stW7, []) ∧
    fireTimer ⟨5, 42, 3⟩ stW7 = (stW7, []) :=
  C7_burn_trigger_idempotent stW7 3 42 5 "ZZZZZZ" (some "u") (by decide) (by decide)

/-- C9: a session with no bound current room makes `upload-file`,
`file-downloaded` and `leave-room` complete no-ops: the state is
unchanged and nothing at all (in particular no error event) is
emitted. -/
theorem C9_unbound_session_noop (st : ServerState) (sid fid newId : Nat)
    (inp : UploadInput) (res : Except String (String × Option Nat))
    (hsess : alGet st.sessions sid = some ⟨none, none⟩) :
    fileDownloaded sid fid st = (st, []) ∧
    uploadFile sid inp newId res st = (st, []) ∧
    handleLeave sid st = (st, []) := by
  refine ⟨?_, ?_, ?_⟩
  · simp [fileDownloaded, hsess]
  · simp [uploadFile, hsess]
  · simp [handleLeave, hsess, truthyStr, alSet_eq_self hsess]

def stW9 : ServerState :=
  { rooms := [("ROOMAA", { users := [(1, some "a")], files := [] })],
    fileDownloads := [], fileFirstAccess := [],
    sessions := [(1, { currentRoom := some "ROOMAA", currentUser := some "a" }),
                 (2, { currentRoom := none, currentUser := none })],
    timers := [], now := 0 }

def inpW9 : UploadInput :=
  { tempId := 1, name := "x", size := 1, type := "t",
    data := Payload.dataUrl "t" "QQ", provider := "catbox",
    burn := none, encrypted := false, encryptionKey := none }

/-- Witness for C9 at a concrete state with an unbound session 2. -/
theorem C9_unbound_session_noop_witness :
    fileDownloaded 2 42 stW9 = (stW9, []) ∧
    uploadFile 2 inpW9 7 (Except.ok ("u", none)) stW9 = (stW9, []) ∧
    handleLeave 2 stW9 = (stW9, []) :=
  C9_unbound_session_noop stW9 2 42 7 inpW9 (Except.ok ("u", none)) (by decide)

/-- C10: a `file-downloaded` report for a file id that is missing from the
reporter's current room manifest, or whose file carries no burn policy,
changes nothing: no counter, no first-access stamp, no timer, no
emission. -/
theorem C10_download_report_frame (st : ServerState) (sid fid : Nat)
    (code : String) (cu : Option String)
    (hsess : alGet st.sessions sid = some ⟨some code, cu⟩)
    (hnb : manifestBurnTarget st code fid = false) :
    fileDownloaded sid fid st = (st, []) := by
  cases hr : alGet st.rooms code with
  | none => simp [fileDownloaded, hsess, hr]
  | some room =>
      cases hf : room.files.find? (fun f => f.id = fid) with
      | none => simp [fileDownloaded, hsess, hr, hf]
      | some f =>
          have hburn : f.burn = none := by
            simp only [manifestBurnTarget, hr, hf] at hnb
            cases hb : f.burn with
            | none => rfl
            | some b => rw [hb] at hnb; simp at hnb
          simp [fileDownloaded, hsess, hr, hf, hburn]

def fW10 : File :=
  { id := 8, tempId := 0, name := "plain", size := 1, type := "t",
    provider := "catbox", url := some "u", expiresAt := none,
    sharedBy := some "a", timestamp := 0, burn := none,
    encrypted := false, encryptionKey := none }

def stW10 : ServerState :=
  { rooms := [("ROOMAA", { users := [(4, some "a")], files := [fW10] })],
    fileDownloads := [], fileFirstAccess := [],
    sessions := [(4, { currentRoom := some "ROOMAA", currentUser := some "a" })],
    timers := [], now := 0 }

/-- Witness for C10: a report on a policy-free file is a no-op. -/
theorem C10_download_report_frame_witness :
    fileDownloaded 4 8 stW10 = (stW10, []) :=
  C10_download_report_frame stW10 4 8 "ROOMAA" (some "a") (by decide) (by decide)

theorem handleLeave_empty_room (st : ServerState) (sid : Nat) (code : String)
    (u : String) (room : Room)
    (hsess : alGet st.sessions sid = some ⟨some code, some u⟩)
    (hu : u ≠ "") (hc : code ≠ "")
    (hroom : alGet st.rooms code = some room)
    (hempty : alDel room.users sid = []) :
    alGet (handleLeave sid st).1.rooms code = none ∧
    (handleLeave sid st).1.fileDownloads = purgeAll st.fileDownloads room.files ∧
    (handleLeave sid st).1.fileFirstAccess =
      purgeAll st.fileFirstAccess room.files := by
  refine ⟨?_, ?_, ?_⟩ <;>
    simp [handleLeave, hsess, truthyStr, hu, hc, hroom, hempty, alGet_alDel_self]

/-- C4: when a room's membership drops to zero through `leave-room` or
`disconnect`, that same call deletes the room from the registry, purges
the tracker state of every file that was in its manifest, and a
subsequent `join-room` with the code fails with the room-not-found
error and changes nothing. -/
theorem C4_empty_room_synchronous_teardown (st : ServerState) (sid sid2 : Nat)
    (code : String) (u : String) (u2 : Option String) (room : Room) (f : File)
    (hsess : alGet st.sessions sid = some ⟨some code, some u⟩)
    (hu : u ≠ "") (hc : code ≠ "")
    (hroom : alGet st.rooms code = some room)
    (hempty : alDel room.users sid = [])
    (hf : f ∈ room.files) :
    alGet (handleLeave sid st).1.rooms code = none ∧
    alGet (handleLeave sid st).1.fileDownloads f.id = none ∧
    alGet (handleLeave sid st).1.fileFirstAccess f.id = none ∧
    joinRoom sid2 u2 code (handleLeave sid st).1 =
      ((handleLeave sid st).1,
       [Emission.toSession sid2 (OutEvent.errorMsg "Room not found")]) := by
  obtain ⟨h1, h2, h3⟩ := handleLeave_empty_room st sid code u room hsess hu hc hroom hempty
  refine ⟨h1, ?_, ?_, ?_⟩
  · rw [h2]; exact purgeAll_get_none (List.mem_map_of_mem File.id hf)
  · rw [h3]; exact purgeAll_get_none (List.mem_map_of_mem File.id hf)
  · simp [joinRoom, h1]

def fW4 : File :=
  { id := 13, tempId := 0, name := "doomed", size := 1, type := "t",
    provider := "catbox", url := some "u", expiresAt := none,
    sharedBy := some "z", timestamp := 0, burn := some (Burn.downloads 3),
    encrypted := false, encryptionKey := none }

def roomW4 : Room := { users := [(6, some "z")], files := [fW4] }

def stW4 : ServerState :=
  { rooms := [("ROOMBB", roomW4)],
    fileDownloads := [(13, 1)], fileFirstAccess := [(13, 500)],
    sessions := [(6, { currentRoom := some "ROOMBB", currentUser := some "z" })],
    timers := [], now := 1000 }

/-- Witness for C4: the last member leaving tears the room down. -/
theorem C4_empty_room_synchronous_teardown_witness :
    alGet (handleLeave 6 stW4).1.rooms "ROOMBB" = none ∧
    alGet (handleLeave 6 stW4).1.fileDownloads fW4.id = none ∧
    alGet (handleLeave 6 stW4).1.fileFirstAccess fW4.id = none ∧
    joinRoom 7 (some "late") "ROOMBB" (handleLeave 6 stW4).1 =
      ((handleLeave 6 stW4).1,
       [Emission.toSession 7 (OutEvent.errorMsg "Room not found")]) :=
  C4_empty_room_synchronous_teardown stW4 6 7 "ROOMBB" "z" (some "late") roomW4 fW4
    (by decide) (by decide) (by decide) (by decide) (by decide) (by decide)

def fW8 : File :=
  { id := 55, tempId := 0, name := "old-file", size := 1, type := "t",
    provider := "catbox", url := some "u", expiresAt := none,
    sharedBy := some "old", timestamp := 0, burn := none,
    encrypted := false, encryptionKey := none }

def roomW8 : Room := { users := [(9, some "old")], files := [fW8] }

def stW8 : ServerState :=
  { rooms := [("AAAAAA", roomW8)],
    fileDownloads := [], fileFirstAccess := [],
    sessions := [(9, { currentRoom := some "AAAAAA", currentUser := some "old" }),
                 (5, { currentRoom := none, currentUser := none })],
    timers := [], now := 0 }

/-- C8 counterexample: with room `AAAAAA` live (it holds a member and a
file), a `create-room` whose random draws produce `AAAAAA` again does
not regenerate the code — it silently replaces the existing room with a
fresh one, so the generated code is not collision-checked against the
live room set. -/
theorem C8_counterexample :
    generateCode (fun _ => 0) = "AAAAAA" ∧
    alGet stW8.rooms "AAAAAA" = some roomW8 ∧
    (createRoom 5 (some "eve") (fun _ => 0) stW8).2 =
      [Emission.toSession 5 (OutEvent.roomCreated "AAAAAA")] ∧
    alGet (createRoom 5 (some "eve") (fun _ => 0) stW8).1.rooms "AAAAAA" =
      some { users := [(5, some "eve")], files := [] } := by
  decide

/-- C8 amended: `create-room` returns a 6-character code drawn from the
ambiguity-avoiding alphabet (no `I`, `O`, `0`, `1`), but the code is
not collision-checked: `rooms.set` installs the fresh empty room under
the generated code unconditionally, replacing a colliding room. -/
theorem C8_room_code_amended (r : Nat → Nat) (st : ServerState) (sid : Nat)
    (u : Option String) :
    (generateCode r).data.length = 6 ∧
    (generateCode r).data.all (fun c => decide (c ∈ codeChars)) = true ∧
    (createRoom sid u r st).1.rooms =
      alSet st.rooms (generateCode r) { users := [(sid, u)], files := [] } ∧
    (createRoom sid u r st).2 =
      [Emission.toSession sid (OutEvent.roomCreated (generateCode r))] := by
  refine ⟨by simp [generateCode], ?_, rfl, rfl⟩
  rw [List.all_eq_true]
  intro c hc
  rw [decide_eq_true_eq]
  simp only [generateCode] at hc
  simp only [List.mem_map, List.mem_range] at hc
  obtain ⟨i, _, hget⟩ := hc
  have hlt : r i % 32 < codeChars.length := by
    have h32 : codeChars.length = 32 := by decide
    rw [h32]
    exact Nat.mod_lt _ (by decide)
  rw [← hget, List.getD_eq_getElem?_getD, List.getElem?_eq_getElem hlt]
  simp only [Option.getD_some]
  exact List.getElem_mem hlt

theorem sweepFold_purge (now fid : Nat) :
    ∀ (l : List (String × Room)) (acc : ServerState),
      ((∃ p ∈ l, ∃ f ∈ p.2.files, expired now f = true ∧ f.id = fid) ∨
        (alGet acc.fileDownloads fid = none ∧
         alGet acc.fileFirstAccess fid = none)) →
      alGet (l.foldl (sweepRoom now) acc).fileDownloads fid = none ∧
      alGet (l.foldl (sweepRoom now) acc).fileFirstAccess fid = none := by
  intro l
  induction l with
  | nil =>
      intro acc h
      rcases h with ⟨p, hp, _⟩ | h
      · cases hp
      · exact h
  | cons q rest ih =>
      intro acc h
      simp only [List.foldl_cons]
      rcases h with ⟨p, hp, f, hf, hexp, hfid⟩ | ⟨h1, h2⟩
      · rcases List.mem_cons.mp hp with rfl | hp'
        · have hdead : fid ∈ (p.2.files.filter (fun g => expired now g)).map File.id :=
            List.mem_map.mpr ⟨f, List.mem_filter.mpr ⟨hf, hexp⟩, hfid⟩
          exact ih _ (Or.inr ⟨purgeAll_get_none hdead, purgeAll_get_none hdead⟩)
        · exact ih _ (Or.inl ⟨p, hp', f, hf, hexp, hfid⟩)
      · exact ih _ (Or.inr ⟨purgeAll_none_preserved h1, purgeAll_none_preserved h2⟩)

def filesC3 : List File :=
  (List.range 100).map (fun i =>
    { id := i, tempId := 0, name := "f", size := 1, type := "t",
      provider := "catbox", url := some "u", expiresAt := none,
      sharedBy := some "a", timestamp := 0,
      burn := if i = 0 then some (Burn.downloads 5) else none,
      encrypted := false, encryptionKey := none })

def roomC3 : Room := { users := [(1, some "a")], files := filesC3 }

def stC3 : ServerState :=
  { rooms := [("ROOMDD", roomC3)],
    fileDownloads := [(0, 2)], fileFirstAccess := [(0, 400)],
    sessions := [(1, { currentRoom := some "ROOMDD", currentUser := some "a" })],
    timers := [], now := 1000 }

def inpC3 : UploadInput :=
  { tempId := 9, name := "new", size := 1, type := "t",
    data := Payload.dataUrl "t" "QQ", provider := "catbox",
    burn := none, encrypted := false, encryptionKey := none }

/-- C3 counterexample: a room already holding 100 files receives one more
upload; the oldest file (id 0, which carries a burn policy and live
tracker entries) is evicted from the manifest by the overflow `shift`,
yet both of its tracker entries survive, although id 0 is no longer in
any room's manifest. -/
theorem C3_counterexample :
    (uploadFile 1 inpC3 500 (Except.ok ("u", none)) stC3).1.rooms.all
      (fun p => p.2.files.all (fun f => f.id ≠ 0)) = true ∧
    alGet (uploadFile 1 inpC3 500 (Except.ok ("u", none)) stC3).1.fileDownloads
      0 = some 2 ∧
    alGet (uploadFile 1 inpC3 500 (Except.ok ("u", none)) stC3).1.fileFirstAccess
      0 = some 400 := by
  decide

/-- C3 amended: Burn Tracker state is purged whenever a file is removed by
burn, by the provider-expiry sweep, or by room teardown — but not on
manifest-overflow eviction, which leaves the evicted file's tracker
entries behind (contrary to the original claim; see the
counterexample). -/
theorem C3_tracker_purge_amended
    (stA : ServerState) (fidA : Nat) (codeA : String) (roomA : Room)
    (stB : ServerState) (codeB : String) (roomB : Room) (fB : File)
    (stC : ServerState) (sidC : Nat) (codeC : String) (uC : String)
    (roomC : Room) (fC : File)
    (hroomA : alGet stA.rooms codeA = some roomA)
    (hroomB : alGet stB.rooms codeB = some roomB)
    (hfB : fB ∈ roomB.files) (hexpB : expired stB.now fB = true)
    (hsessC : alGet stC.sessions sidC = some ⟨some codeC, some uC⟩)
    (huC : uC ≠ "") (hcC : codeC ≠ "")
    (hroomC : alGet stC.rooms codeC = some roomC)
    (hemptyC : alDel roomC.users sidC = [])
    (hfC : fC ∈ roomC.files) :
    alGet (burnFile fidA codeA stA).1.fileDownloads fidA = none ∧
    alGet (burnFile fidA codeA stA).1.fileFirstAccess fidA = none ∧
    alGet (sweep stB).fileDownloads fB.id = none ∧
    alGet (sweep stB).fileFirstAccess fB.id = none ∧
    alGet (handleLeave sidC stC).1.fileDownloads fC.id = none ∧
    alGet (handleLeave sidC stC).1.fileFirstAccess fC.id = none := by
  obtain ⟨_, hC2, hC3⟩ :=
    handleLeave_empty_room stC sidC codeC uC roomC hsessC huC hcC hroomC hemptyC
  refine ⟨?_, ?_, ?_, ?_, ?_, ?_⟩
  · simp [burnFile, hroomA, alGet_alDel_self]
  · simp [burnFile, hroomA, alGet_alDel_self]
  · exact (sweepFold_purge stB.now fB.id stB.rooms stB
      (Or.inl ⟨(codeB, roomB), alGet_mem hroomB, fB, hfB, hexpB, rfl⟩)).1
  · exact (sweepFold_purge stB.now fB.id stB.rooms stB
      (Or.inl ⟨(codeB, roomB), alGet_mem hroomB, fB, hfB, hexpB, rfl⟩)).2
  · rw [hC2]; exact purgeAll_get_none (List.mem_map_of_mem File.id hfC)
  · rw [hC3]; exact purgeAll_get_none (List.mem_map_of_mem File.id hfC)

def fWA : File :=
  { id := 21, tempId := 0, name := "burny", size := 1, type := "t",
    provider := "catbox", url := some "u", expiresAt := none,
    sharedBy := some "a", timestamp := 0, burn := some (Burn.downloads 1),
    encrypted := false, encryptionKey := none }

def roomWA : Room := { users := [(1, some "a")], files := [fWA] }

def stWA : ServerState :=
  { rooms := [("RRRRRR", roomWA)],
    fileDownloads := [(21, 1)], fileFirstAccess := [(21, 5)],
    sessions := [(1, { currentRoom := some "RRRRRR", currentUser := some "a" })],
    timers := [], now := 10 }

def fWB : File :=
  { id := 22, tempId := 0, name := "stale", size := 1, type := "t",
    provider := "litterbox", url := some "u", expiresAt := some 10,
    sharedBy := some "b", timestamp := 0, burn := none,
    encrypted := false, encryptionKey := none }

def roomWB : Room := { users := [(2, some "b")], files := [fWB] }

def stWB : ServerState :=
  { rooms := [("SSSSSS", roomWB)],
    fileDownloads := [(22, 3)], fileFirstAccess := [(22, 5)],
    sessions := [(2, { currentRoom := some "SSSSSS", currentUser := some "b" })],
    timers := [], now := 100 }

def fWC : File :=
  { id := 23, tempId := 0, name := "torn", size := 1, type := "t",
    provider := "catbox", url := some "u", expiresAt := none,
    sharedBy := some "c", timestamp := 0, burn := some (Burn.time 5),
    encrypted := false, encryptionKey := none }

def roomWC : Room := { users := [(3, some "c")], files := [fWC] }

def stWC : ServerState :=
  { rooms := [("TTTTTT", roomWC)],
    fileDownloads := [(23, 1)], fileFirstAccess := [(23, 7)],
    sessions := [(3, { currentRoom := some "TTTTTT", currentUser := some "c" })],
    timers := [], now := 100 }

theorem mem_alDel {α β : Type} [DecidableEq α] {m : List (α × β)} {k : α}
    {p : α × β} (h : p ∈ alDel m k) : p ∈ m := by
  induction m with
  | nil => simp [alDel] at h
  | cons q rest ih =>
      obtain ⟨a, b⟩ := q
      by_cases ha : a = k
      · simp only [alDel, if_pos ha] at h
        exact List.mem_cons_of_mem _ (ih h)
      · simp only [alDel, if_neg ha, List.mem_cons] at h
        rcases h with h | h
        · simp [h]
        · exact List.mem_cons_of_mem _ (ih h)

theorem boundedRooms_alSet {rooms : List (String × Room)} {code : String}
    {r : Room} (h : boundedRooms rooms) (hr : r.files.length ≤ 100) :
    boundedRooms (alSet rooms code r) := by
  intro p hp
  rcases mem_alSet hp with rfl | hp'
  · exact hr
  · exact h p hp'

theorem boundedRooms_alDel {rooms : List (String × Room)} {code : String}
    (h : boundedRooms rooms) : boundedRooms (alDel rooms code) := by
  intro p hp
  exact h p (mem_alDel hp)

theorem burnFile_bounded (fid : Nat) (code : String) (st : ServerState)
    (h : boundedRooms st.rooms) :
    boundedRooms (burnFile fid code st).1.rooms := by
  cases hr : alGet st.rooms code with
  | none => simp only [burnFile, hr]; exact h
  | some room =>
      simp only [burnFile, hr]
      exact boundedRooms_alSet h
        (le_trans (List.length_filter_le _ _) (h (code, room) (alGet_mem hr)))

theorem checkBurn_bounded (fid : Nat) (code : String) (st : ServerState)
    (h : boundedRooms st.rooms) :
    boundedRooms (checkBurnConditions fid code st).1.rooms := by
  unfold checkBurnConditions
  repeat' split
  all_goals first
    | exact h
    | exact burnFile_bounded fid code st h

theorem sweepFold_bounded (now : Nat) :
    ∀ (l : List (String × Room)) (acc : ServerState),
      boundedRooms acc.rooms → (∀ p ∈ l, p.2.files.length ≤ 100) →
      boundedRooms ((l.foldl (sweepRoom now) acc).rooms) := by
  intro l
  induction l with
  | nil => intro acc h _; exact h
  | cons q rest ih =>
      intro acc h hl
      simp only [List.foldl_cons]
      apply ih
      · exact boundedRooms_alSet h
          (le_trans (List.length_filter_le _ _) (hl q (List.mem_cons_self _ _)))
      · intro p hp; exact hl p (List.mem_cons_of_mem _ hp)

theorem handleLeave_bounded (sid : Nat) (st : ServerState)
    (h : boundedRooms st.rooms) :
    boundedRooms (handleLeave sid st).1.rooms := by
  cases hs : alGet st.sessions sid with
  | none => simp only [handleLeave, hs]; exact h
  | some sess =>
      by_cases hturn : (truthyStr sess.currentRoom && truthyStr sess.currentUser) = true
      · cases hcr : sess.currentRoom with
        | none => rw [hcr] at hturn; simp [truthyStr] at hturn
        | some code =>
            rw [hcr] at hturn
            cases hr : alGet st.rooms code with
            | none => simp [handleLeave, hs, hcr, hturn, hr]; exact h
            | some room =>
                have hb : room.files.length ≤ 100 := h (code, room) (alGet_mem hr)
                by_cases hlen : (alDel room.users sid).length = 0
                · simp [handleLeave, hs, hcr, hturn, hr, hlen]
                  exact boundedRooms_alDel (boundedRooms_alSet h hb)
                · simp [handleLeave, hs, hcr, hturn, hr, hlen]
                  exact boundedRooms_alSet h hb
      · simp [handleLeave, hs, hturn]; exact h

theorem shareUploadedFile_bounded (sid newId : Nat) (inp : UploadInput)
    (url : Option String) (expAt : Option Nat) (sharedBy : Option String)
    (code : String) (st : ServerState) (h : boundedRooms st.rooms) :
    boundedRooms (shareUploadedFile sid inp newId url expAt sharedBy
      code st).1.rooms := by
  cases hr : alGet st.rooms code with
  | none =>
      by_cases hbn : inp.burn.isSome = true <;>
        · simp [shareUploadedFile, hr, hbn]
          exact h
  | some room =>
      have hb : room.files.length ≤ 100 := h (code, room) (alGet_mem hr)
      by_cases hbn : inp.burn.isSome = true <;>
        · simp [shareUploadedFile, hr, hbn]
          apply boundedRooms_alSet h
          by_cases hof : 100 < room.files.length + 1
          · simp only [if_pos hof, List.length_tail, List.length_append,
              List.length_cons, List.length_nil]
            omega
          · simp only [if_neg hof, List.length_append, List.length_cons,
              List.length_nil]
            omega

theorem uploadFile_bounded (sid newId : Nat) (inp : UploadInput)
    (res : Except String (String × Option Nat)) (st : ServerState)
    (h : boundedRooms st.rooms) :
    boundedRooms (uploadFile sid inp newId res st).1.rooms := by
  cases hs : alGet st.sessions sid with
  | none => simp only [uploadFile, hs]; exact h
  | some sess =>
      cases hcr : sess.currentRoom with
      | none => simp only [uploadFile, hs, hcr]; exact h
      | some code =>
          cases hdata : base64ToBuffer inp.data with
          | none => simp only [uploadFile, hs, hcr, hdata]; exact h
          | some buf =>
              by_cases hp : inp.provider ∈ knownProviders
              · cases res with
                | error msg =>
                    simp [uploadFile, hs, hcr, hdata, hp]
                    exact h
                | ok v =>
                    obtain ⟨url, expAt⟩ := v
                    simp [uploadFile, hs, hcr, hdata, hp]
                    exact shareUploadedFile_bounded sid newId inp (some url)
                      expAt sess.currentUser code st h
              · by_cases hpp : inp.provider ∈ protoCallOkProviders
                · simp [uploadFile, hs, hcr, hdata, hp, hpp]
                  exact shareUploadedFile_bounded sid newId inp none none
                    sess.currentUser code st h
                · by_cases hpt : inp.provider ∈ protoThrowAtCallProviders
                  · simp [uploadFile, hs, hcr, hdata, hp, hpp, hpt]
                    exact h
                  · by_cases hpr : inp.provider ∈ protoThrowAtResultProviders <;>
                      · simp [uploadFile, hs, hcr, hdata, hp, hpp, hpt, hpr]
                        exact h

theorem fileDownloaded_bounded (sid fid : Nat) (st : ServerState)
    (h : boundedRooms st.rooms) :
    boundedRooms (fileDownloaded sid fid st).1.rooms := by
  cases hs : alGet st.sessions sid with
  | none => simp only [fileDownloaded, hs]; exact h
  | some sess =>
      cases hcr : sess.currentRoom with
      | none => simp only [fileDownloaded, hs, hcr]; exact h
      | some code =>
          cases hr : alGet st.rooms code with
          | none => simp only [fileDownloaded, hs, hcr, hr]; exact h
          | some room =>
              cases hf : room.files.find? (fun f => f.id = fid) with
              | none => simp only [fileDownloaded, hs, hcr, hr, hf]; exact h
              | some file =>
                  cases hbm : file.burn with
                  | none =>
                      simp only [fileDownloaded, hs, hcr, hr, hf, hbm]
                      exact h
                  | some b =>
                      simp [fileDownloaded, hs, hcr, hr, hf, hbm]
                      split
                      · exact checkBurn_bounded fid code _ h
                      · cases b with
                        | downloads n => exact checkBurn_bounded fid code _ h
                        | time m => exact checkBurn_bounded fid code _ h

theorem fireTimer_bounded (t : Timer) (st : ServerState)
    (h : boundedRooms st.rooms) :
    boundedRooms (fireTimer t st).1.rooms := by
  unfold fireTimer
  repeat' split
  all_goals first
    | exact h
    | exact checkBurn_bounded t.fileId _ _ h

theorem step_bounded (st : ServerState) (e : Event)
    (h : boundedRooms st.rooms) : boundedRooms (step st e).1.rooms := by
  cases e with
  | createRoom sid u r =>
      exact boundedRooms_alSet h (by simp)
  | joinRoom sid u code =>
      cases hr : alGet st.rooms code with
      | none => simp only [step, joinRoom, hr]; exact h
      | some room =>
          simp only [step, joinRoom, hr]
          exact boundedRooms_alSet h (h (code, room) (alGet_mem hr))
  | uploadFile sid inp newId res => exact uploadFile_bounded sid newId inp res st h
  | fileDownloaded sid fid => exact fileDownloaded_bounded sid fid st h
  | leave sid => exact handleLeave_bounded sid st h
  | timerFire idx =>
      cases ht : st.timers[idx]? with
      | none => simp only [step, ht]; exact h
      | some t =>
          by_cases hd : st.now ≥ t.fireAt
          · simp only [step, ht, if_pos hd]
            exact fireTimer_bounded t _ h
          · simp only [step, ht, if_neg hd]; exact h
  | sweepTick => exact sweepFold_bounded st.now st.rooms st h h
  | tick dt => exact h

theorem tail_append_singleton {l : List File} {f : File} (h : l ≠ []) :
    (l ++ [f]).tail = l.tail ++ [f] := by
  cases l with
  | nil => cases h rfl
  | cons a as => rfl

/-- C6: no room's manifest ever exceeds 100 files — every server step
preserves the bound — and a successful upload into a room whose
manifest already holds exactly 100 files evicts precisely the oldest
entry: the resulting manifest is the old one minus its head, with the
new file appended. -/
theorem C6_manifest_bound_and_fifo
    (st : ServerState) (e : Event) (st2 : ServerState) (sid newId : Nat)
    (inp : UploadInput) (buf : String × String) (url : String)
    (expAt : Option Nat) (code : String) (cu : Option String) (room : Room)
    (hb : boundedRooms st.rooms)
    (hsess : alGet st2.sessions sid = some ⟨some code, cu⟩)
    (hdata : base64ToBuffer inp.data = some buf)
    (hp : inp.provider ∈ knownProviders)
    (hroom : alGet st2.rooms code = some room)
    (hlen : room.files.length = 100) :
    boundedRooms (step st e).1.rooms ∧
    alGet (uploadFile sid inp newId (Except.ok (url, expAt)) st2).1.rooms code =
      some { room with files :=
        room.files.tail ++
          [mkSharedFile inp newId (some url) expAt cu st2.now] } := by
  refine ⟨step_bounded st e hb, ?_⟩
  have hne : room.files ≠ [] := by
    intro hnil; rw [hnil] at hlen; simp at hlen
  have hbig : 100 < room.files.length + 1 := by omega
  by_cases hbn : inp.burn.isSome = true <;>
    · simp [uploadFile, shareUploadedFile, hsess, hdata, hp, hroom, hbn, hbig,
        alGet_alSet_self, tail_append_singleton hne]

/-- Witness for C6 at a concrete 100-file room. -/
theorem C6_manifest_bound_and_fifo_witness :
    boundedRooms (step stC3 (Event.tick 5)).1.rooms ∧
    alGet (uploadFile 1 inpC3 500 (Except.ok ("u", none)) stC3).1.rooms
      "ROOMDD" =
      some { roomC3 with files :=
        roomC3.files.tail ++
          [mkSharedFile inpC3 500 (some "u") none (some "a") 1000] } :=
  C6_manifest_bound_and_fifo stC3 (Event.tick 5) stC3 1 500 inpC3 ("QQ", "t")
    "u" none "ROOMDD" (some "a") roomC3 (by decide) (by decide) (by decide)
    (by decide) (by decide) (by decide)

theorem fileDownloaded_step_no_burn (st : ServerState) (sid fid T k : Nat)
    (code : String) (cu : Option String) (room : Room) (f : File)
    (hsess : alGet st.sessions sid = some ⟨some code, cu⟩)
    (hroom : alGet st.rooms code = some room)
    (hfind : room.files.find? (fun g => g.id = fid) = some f)
    (hburn : f.burn = some (Burn.downloads T))
    (hcnt : alGet st.fileDownloads fid = some k)
    (hlt : k + 1 < T) :
    (fileDownloaded sid fid st).2 = [] ∧
    (fileDownloaded sid fid st).1.rooms = st.rooms ∧
    (fileDownloaded sid fid st).1.sessions = st.sessions ∧
    (fileDownloaded sid fid st).1.now = st.now ∧
    alGet (fileDownloaded sid fid st).1.fileDownloads fid = some (k + 1) := by
  have hget : alGet (alSet st.fileDownloads fid
      ((alGet st.fileDownloads fid).getD 0 + 1)) fid = some (k + 1) := by
    rw [hcnt, Option.getD_some]
    exact alGet_alSet_self _ _ _
  have hnb : ¬ T ≤ k + 1 := Nat.not_le.mpr hlt
  by_cases hfa : (alGet st.fileFirstAccess fid).isSome = true <;>
    · simp [fileDownloaded, hsess, hroom, hfind, hburn, hfa,
        checkBurnConditions, hget, hnb]

theorem fileDownloaded_step_burn (st : ServerState) (sid fid T : Nat)
    (code : String) (cu : Option String) (room : Room) (f : File)
    (hsess : alGet st.sessions sid = some ⟨some code, cu⟩)
    (hroom : alGet st.rooms code = some room)
    (hfind : room.files.find? (fun g => g.id = fid) = some f)
    (hburn : f.burn = some (Burn.downloads T))
    (hcnt : alGet st.fileDownloads fid = some (T - 1))
    (hT : 0 < T) :
    (fileDownloaded sid fid st).2 =
      [Emission.toRoom code (OutEvent.fileBurned fid)] ∧
    alGet (fileDownloaded sid fid st).1.rooms code =
      some { room with files := room.files.filter (fun g => g.id ≠ fid) } := by
  have hTeq : T - 1 + 1 = T := by omega
  have hget : alGet (alSet st.fileDownloads fid
      ((alGet st.fileDownloads fid).getD 0 + 1)) fid = some T := by
    rw [hcnt, Option.getD_some, hTeq]
    exact alGet_alSet_self _ _ _
  have hge : T ≤ T := le_refl T
  by_cases hfa : (alGet st.fileFirstAccess fid).isSome = true <;>
    · simp [fileDownloaded, hsess, hroom, hfind, hburn, hfa,
        checkBurnConditions, burnFile, hget, hge, alGet_alSet_self]

theorem C1_reports_invariant (st : ServerState) (sid fid T : Nat)
    (code : String) (cu : Option String) (room : Room) (f : File)
    (hsess : alGet st.sessions sid = some ⟨some code, cu⟩)
    (hroom : alGet st.rooms code = some room)
    (hfind : room.files.find? (fun g => g.id = fid) = some f)
    (hburn : f.burn = some (Burn.downloads T))
    (hcnt : alGet st.fileDownloads fid = some 0) :
    ∀ k, k < T →
      (run st (List.replicate k (Event.fileDownloaded sid fid))).2 = [] ∧
      (run st (List.replicate k (Event.fileDownloaded sid fid))).1.rooms =
        st.rooms ∧
      (run st (List.replicate k (Event.fileDownloaded sid fid))).1.sessions =
        st.sessions ∧
      (run st (List.replicate k (Event.fileDownloaded sid fid))).1.now =
        st.now ∧
      alGet (run st (List.replicate k
        (Event.fileDownloaded sid fid))).1.fileDownloads fid = some k := by
  intro k
  induction k with
  | zero =>
      intro _
      exact ⟨rfl, rfl, rfl, rfl, hcnt⟩
  | succ k ih =>
      intro hk
      obtain ⟨he, hr, hs2, hn, hd⟩ := ih (Nat.lt_of_succ_lt hk)
      have hstep := fileDownloaded_step_no_burn
        (run st (List.replicate k (Event.fileDownloaded sid fid))).1
        sid fid T k code cu room f
        (by rw [hs2]; exact hsess) (by rw [hr]; exact hroom) hfind hburn hd hk
      obtain ⟨e1, r1, s1, n1, d1⟩ := hstep
      rw [List.replicate_succ', run_snoc]
      refine ⟨?_, ?_, ?_, ?_, ?_⟩
      · simp only [step] at e1 ⊢
        rw [he, e1]
        rfl
      · simp only [step] at r1 ⊢
        rw [r1, hr]
      · simp only [step] at s1 ⊢
        rw [s1, hs2]
      · simp only [step] at n1 ⊢
        rw [n1, hn]
      · simp only [step] at d1 ⊢
        exact d1

/-- C1: for a file with a download-count burn policy of positive threshold
T, the first T-1 `file-downloaded` reports produce no `file-burned`
broadcast and leave the file in the manifest, while the trace of T
reports produces exactly one `file-burned` broadcast and removes the
file id from the room's manifest. -/
theorem C1_download_threshold_burn (st : ServerState) (sid fid T k : Nat)
    (code : String) (cu : Option String) (room : Room) (f : File)
    (hT : 0 < T) (hk : k < T)
    (hsess : alGet st.sessions sid = some ⟨some code, cu⟩)
    (hroom : alGet st.rooms code = some room)
    (hfind : room.files.find? (fun g => g.id = fid) = some f)
    (hburn : f.burn = some (Burn.downloads T))
    (hcnt : alGet st.fileDownloads fid = some 0) :
    ((run st (List.replicate k (Event.fileDownloaded sid fid))).2.countP
        (isBurnOf fid) = 0 ∧
      manifestHas (run st (List.replicate k (Event.fileDownloaded sid fid))).1
        code fid = true) ∧
    (run st (List.replicate T (Event.fileDownloaded sid fid))).2.countP
      (isBurnOf fid) = 1 ∧
    manifestHas (run st (List.replicate T (Event.fileDownloaded sid fid))).1
      code fid = false := by
  obtain ⟨he, hr, hs2, hn, hd⟩ := C1_reports_invariant st sid fid T code cu
    room f hsess hroom hfind hburn hcnt k hk
  refine ⟨⟨?_, ?_⟩, ?_, ?_⟩
  · rw [he]; rfl
  · simp [manifestHas, hr, hroom, hfind]
  · obtain ⟨he', hr', hs2', hn', hd'⟩ := C1_reports_invariant st sid fid T
      code cu room f hsess hroom hfind hburn hcnt (T - 1) (by omega)
    obtain ⟨be, br⟩ := fileDownloaded_step_burn
      (run st (List.replicate (T - 1) (Event.fileDownloaded sid fid))).1
      sid fid T code cu room f
      (by rw [hs2']; exact hsess) (by rw [hr']; exact hroom) hfind hburn hd' hT
    have hrep : List.replicate T (Event.fileDownloaded sid fid) =
        List.replicate (T - 1) (Event.fileDownloaded sid fid) ++
          [Event.fileDownloaded sid fid] := by
      rw [← List.replicate_succ']
      congr 1
      omega
    rw [hrep, run_snoc]
    simp only [step] at be ⊢
    rw [he', be]
    simp [isBurnOf]
  · obtain ⟨he', hr', hs2', hn', hd'⟩ := C1_reports_invariant st sid fid T
      code cu room f hsess hroom hfind hburn hcnt (T - 1) (by omega)
    obtain ⟨be, br⟩ := fileDownloaded_step_burn
      (run st (List.replicate (T - 1) (Event.fileDownloaded sid fid))).1
      sid fid T code cu room f
      (by rw [hs2']; exact hsess) (by rw [hr']; exact hroom) hfind hburn hd' hT
    have hrep : List.replicate T (Event.fileDownloaded sid fid) =
        List.replicate (T - 1) (Event.fileDownloaded sid fid) ++
          [Event.fileDownloaded sid fid] := by
      rw [← List.replicate_succ']
      congr 1
      omega
    rw [hrep, run_snoc]
    simp only [step] at br ⊢
    simp [manifestHas, br, find?_id_filter_ne]

def fW1 : File :=
  { id := 9, tempId := 0, name := "twice", size := 1, type := "t",
    provider := "catbox", url := some "u", expiresAt := none,
    sharedBy := some "a", timestamp := 0, burn := some (Burn.downloads 2),
    encrypted := false, encryptionKey := none }

def roomW1 : Room :=
  { users := [(1, some "a"), (2, some "b")], files := [fW1] }

def stW1 : ServerState :=
  { rooms := [("ROOMEE", roomW1)],
    fileDownloads := [(9, 0)], fileFirstAccess := [],
    sessions := [(1, { currentRoom := some "ROOMEE", currentUser := some "a" }),
                 (2, { currentRoom := some "ROOMEE", currentUser := some "b" })],
    timers := [], now := 0 }

/-- Witness for C1 with threshold 2: one report does not burn, two reports
burn exactly once and empty the manifest of the id. -/
theorem C1_download_threshold_burn_witness :
    ((run stW1 (List.replicate 1 (Event.fileDownloaded 2 9))).2.countP
        (isBurnOf 9) = 0 ∧
      manifestHas (run stW1 (List.replicate 1 (Event.fileDownloaded 2 9))).1
        "ROOMEE" 9 = true) ∧
    (run stW1 (List.replicate 2 (Event.fileDownloaded 2 9))).2.countP
      (isBurnOf 9) = 1 ∧
    manifestHas (run stW1 (List.replicate 2 (Event.fileDownloaded 2 9))).1
      "ROOMEE" 9 = false :=
  C1_download_threshold_burn stW1 2 9 2 1 "ROOMEE" (some "b") roomW1 fW1
    (by decide) (by decide) (by decide) (by decide) (by decide) (by decide)
    (by decide)

def fTime : File :=
  { id := 7, tempId := 0, name := "doc", size := 5, type := "text/plain",
    provider := "catbox", url := some "u", expiresAt := none,
    sharedBy := some "alice", timestamp := 0, burn := some (Burn.time 5),
    encrypted := false, encryptionKey := none }

def roomTime : Room :=
  { users := [(1, some "alice"), (2, some "bob")], files := [fTime] }

def stTime : ServerState :=
  { rooms := [("ROOMFF", roomTime)],
    fileDownloads := [(7, 0)], fileFirstAccess := [],
    sessions := [(1, { currentRoom := some "ROOMFF", currentUser := some "alice" }),
                 (2, { currentRoom := some "ROOMFF", currentUser := some "bob" })],
    timers := [], now := 1000 }

def traceTime : List Event :=
  [Event.fileDownloaded 2 7, Event.leave 2, Event.tick 300000,
   Event.timerFire 0]

/-- C2 (code bug): a file with a 5-minute time burn policy is first
accessed at t = 1000 ms by session 2, which arms the one-shot deferred
check; session 2 then leaves the room (another member remains, so the
room and the file survive).  When the deferred check fires at exactly
first-access + 5 minutes, its closure reads session 2's live
`currentRoom` variable — now cleared — so the check is a no-op: the
timer is consumed, the file is still in the manifest, the first-access
stamp still reads 1000, and no `file-burned` broadcast was ever
emitted, although the claimed burn instant has arrived. -/
theorem C2_time_burn_missed_at_window :
    (run stTime traceTime).1.now = 1000 + 5 * 60000 ∧
    alGet (run stTime traceTime).1.fileFirstAccess 7 = some 1000 ∧
    (run stTime traceTime).1.timers = [] ∧
    manifestHas (run stTime traceTime).1 "ROOMFF" 7 = true ∧
    (run stTime traceTime).2.countP (isBurnOf 7) = 0 := by
  decide

/-- Witness for the amended C3 at concrete burn, sweep and teardown
scenarios. -/
theorem C3_tracker_purge_amended_witness :
    alGet (burnFile 21 "RRRRRR" stWA).1.fileDownloads 21 = none ∧
    alGet (burnFile 21 "RRRRRR" stWA).1.fileFirstAccess 21 = none ∧
    alGet (sweep stWB).fileDownloads fWB.id = none ∧
    alGet (sweep stWB).fileFirstAccess fWB.id = none ∧
    alGet (handleLeave 3 stWC).1.fileDownloads fWC.id = none ∧
    alGet (handleLeave 3 stWC).1.fileFirstAccess fWC.id = none :=
  C3_tracker_purge_amended stWA 21 "RRRRRR" roomWA stWB "SSSSSS" roomWB fWB
    stWC 3 "TTTTTT" "c" roomWC fWC (by decide) (by decide) (by decide)
    (by decide) (by decide) (by decide) (by decide) (by decide) (by decide)
    (by decide)

end Sovereign
